import Mathlib

/-! KAV A3XX RAD/TCAS LCD driver

A shallow embedding of `KAV_Simulation/KAV_A3XX_RAD_TCAS_LCD.cpp`.

* The object state is a record: the `HT1621` controller handle, the shadow
  `buffer`, the `_initialised` flag and the three pin numbers.
* The controller is an external collaborator (`HT1621.h` is not part of the
  sources).  It is represented by the ordered list of calls made on it and by
  its constant `MAX_ADDR`, which is carried as a field of the handle.
* Machine integers are natural numbers; conversions to `uint8_t`, `uint16_t`
  and `uint32_t` are explicit `% 2 ^ w`.
* `touched` is a ghost field: the ordered list of `buffer` subscripts that
  were read or written.
* The text handed to `set` is a list of characters, parsed by a model of the
  C library's `strtoul` for a 32-bit `unsigned long`.
-/

namespace KAV_A3XX_RAD_TCAS_LCD

/-! ## Constants -/

def DIGIT_ONE : Nat := 0
def DIGIT_TWO : Nat := 1
def DIGIT_THREE : Nat := 2
def DIGIT_FOUR : Nat := 3
def DIGIT_FIVE : Nat := 4
def DIGIT_SIX : Nat := 5

/-- Size of the shadow buffer.  The class header of the RAD/TCAS display is not
among the sources; the value is the one of the sibling header
`KAV_A3XX_RUDDER_LCD.h` (`#define BUFFER_SIZE_MAX 16`). -/
def BUFFER_SIZE_MAX : Nat := 16

/-- Width in bits of `int`, the type in which `SET_BUFF_BIT` is evaluated after
integer promotion (16 on AVR).  Every width of at least 9 bits gives the same
stored byte for bit indices `0..7`. -/
def INT_BITS : Nat := 16

/-! ## The controller handle -/

/-- The command codes sent by `begin`. -/
inductive HTCommand
  | RC256K
  | BIAS_THIRD_4_COM
  | SYS_EN
  | LCD_ON
deriving DecidableEq, Repr

/-- One call made on the controller object.  `cnt` is the optional third
argument of `write`; `none` stands for the two-argument call. -/
inductive HTCall
  | begin
  | sendCommand (c : HTCommand)
  | write (address data : Nat) (cnt : Option Nat)
deriving DecidableEq, Repr

/-- The controller handle `ht_rad_tcas`: its constant `MAX_ADDR` and the calls
made on it so far, oldest first. -/
structure HT1621 where
  MAX_ADDR : Nat
  calls : List HTCall

/-- Records `ht.begin()`. -/
def HT1621.begin (ht : HT1621) : HT1621 :=
  { ht with calls := ht.calls ++ [HTCall.begin] }

/-- Records `ht.sendCommand(c)`. -/
def HT1621.sendCommand (ht : HT1621) (c : HTCommand) : HT1621 :=
  { ht with calls := ht.calls ++ [HTCall.sendCommand c] }

/-- Records `ht.write(address, data[, cnt])` with the argument values as the
caller computed them. -/
def HT1621.write (ht : HT1621) (address data : Nat) (cnt : Option Nat) : HT1621 :=
  { ht with calls := ht.calls ++ [HTCall.write address data cnt] }

/-! ## The object state -/

/-- The fields of a `KAV_A3XX_RAD_TCAS_LCD` object, and the ghost list
`touched` of buffer subscripts used so far. -/
structure State where
  ht_rad_tcas : HT1621
  buffer : Nat → Nat
  _initialised : Bool
  _CS : Nat
  _CLK : Nat
  _DATA : Nat
  touched : List Nat

/-- Evaluation of the subscript `buffer[a]` for reading: the value is
`s.buffer a`, the state only notes the subscript. -/
def State.touch (s : State) (a : Nat) : State :=
  { s with touched := s.touched ++ [a] }

/-- The assignment `buffer[a] = v` of a byte value `v`. -/
def State.store (s : State) (a v : Nat) : State :=
  { s with buffer := fun i => if i = a then v else s.buffer i
           touched := s.touched ++ [a] }

/-- `memset(buffer, c, n)`. -/
def memset (c n : Nat) (s : State) : State :=
  { s with buffer := fun i => if i < n then c % 256 else s.buffer i
           touched := s.touched ++ List.range n }

/-- The loop `for (uint8_t i = 0; i < ht.MAX_ADDR; i++) ht.write(i, 0);`
entered with counter `i`.  The counter is a `uint8_t` and wraps at 256, so the
loop either leaves within 256 iterations or never does; `none` is the
exhaustion of `fuel`. -/
def clearLoop : Nat → Nat → HT1621 → Option HT1621
  | 0, _, _ => none
  | fuel + 1, i, ht =>
    if i < ht.MAX_ADDR then clearLoop fuel ((i + 1) % 256) (ht.write i 0 none)
    else some ht

/-- The whole clearing loop: 257 steps of fuel are enough whenever the loop
terminates at all. -/
def clearController (ht : HT1621) : Option HT1621 :=
  clearLoop 257 0 ht

/-! ## Bit editing -/

/-- Bitwise complement `~x` of an `int`, on its two's complement bits. -/
def intNot (x : Nat) : Nat := 2 ^ INT_BITS - 1 - x

/-- The byte stored by
`buffer[addr] = (buffer[addr] & (~(1 << (bit)))) | (((enabled & 1)) << (bit));`
when `buffer[addr]` holds `p`. -/
def setBuffBitValue (p bit : Nat) (enabled : Bool) : Nat :=
  ((p &&& intNot (1 <<< bit)) ||| ((enabled.toNat &&& 1) <<< bit)) % 256

/-- The macro `SET_BUFF_BIT(addr, bit, enabled)`. -/
def SET_BUFF_BIT (addr bit : Nat) (enabled : Bool) (s : State) : State :=
  (s.touch addr).store addr (setBuffBitValue (s.buffer addr) bit enabled)

/-! ## Member functions -/

/-- The glyph table. -/
def digitPatternRadTcas : List Nat :=
  [ 0b11101011, -- 0
    0b01100000, -- 1
    0b11000111, -- 2
    0b11100101, -- 3
    0b01101100, -- 4
    0b10101101, -- 5 or S
    0b10101111, -- 6
    0b11100000, -- 7
    0b11101111, -- 8
    0b11101101, -- 9
    0b00000100, -- -
    0b00000000, -- blank
    0b11001100, -- small 0 (For V/S)
    0b01100111, -- d
    0b11101110, -- A
    0b00001111 ] -- t

/-- `begin()`: start the controller, clear its memory, zero the buffer. -/
def begin (s : State) : Option State :=
  let ht := s.ht_rad_tcas.begin
  let ht := ht.sendCommand HTCommand.RC256K
  let ht := ht.sendCommand HTCommand.BIAS_THIRD_4_COM
  let ht := ht.sendCommand HTCommand.SYS_EN
  let ht := ht.sendCommand HTCommand.LCD_ON
  (clearController ht).map fun ht =>
    memset 0 BUFFER_SIZE_MAX { s with ht_rad_tcas := ht }

/-- `attach(CS, CLK, DATA)`. -/
def attach (CS CLK DATA : Nat) (s : State) : Option State :=
  begin { s with _CS := CS % 256, _CLK := CLK % 256, _DATA := DATA % 256,
                 _initialised := true }

/-- `detach()`. -/
def detach (s : State) : State :=
  if !s._initialised then s else { s with _initialised := false }

/-- `refreshLCD(address)`. -/
def refreshLCD (address : Nat) (s : State) : State :=
  let address := address % 256
  let s := s.touch address
  { s with ht_rad_tcas := s.ht_rad_tcas.write (address * 2) (s.buffer address) (some 8) }

/-- `clearLCD()`. -/
def clearLCD (s : State) : Option State :=
  (clearController s.ht_rad_tcas).map fun ht =>
    memset 0 BUFFER_SIZE_MAX { s with ht_rad_tcas := ht }

/-- `clearDigit(address)`. -/
def clearDigit (address : Nat) (s : State) : State :=
  let address := address % 256
  let s := { s with ht_rad_tcas := s.ht_rad_tcas.write (address * 2) 0 none }
  s.store address 0

/-- `setRadioDot(enabled)`. -/
def setRadioDot (enabled : Bool) (s : State) : State :=
  refreshLCD DIGIT_THREE (SET_BUFF_BIT DIGIT_THREE 4 enabled s)

/-- `setSpecificDot(address, enabled)`. -/
def setSpecificDot (address : Nat) (enabled : Bool) (s : State) : State :=
  let address := address % 256
  refreshLCD address (SET_BUFF_BIT address 4 enabled s)

/-- `setAllDots(enabled)`. -/
def setAllDots (enabled : Bool) (s : State) : State :=
  (List.range 6).foldl (fun s i => setSpecificDot i enabled s) s

/-- `displayDigit(address, digit)`. -/
def displayDigit (address digit : Nat) (s : State) : State :=
  let address := address % 256
  let digit := digit % 256
  let digit := if digit > 15 then 11 else digit
  refreshLCD address (s.store address (digitPatternRadTcas.getD digit 0))

/-- `setRadioValue(value)`. -/
def setRadioValue (value : Nat) (s : State) : State :=
  let value := value % 2 ^ 32
  if value = 0 then
    let s := displayDigit DIGIT_ONE 11 s
    let s := displayDigit DIGIT_TWO 13 s
    let s := displayDigit DIGIT_THREE 14 s
    let s := displayDigit DIGIT_FOUR 15 s
    let s := displayDigit DIGIT_FIVE 14 s
    displayDigit DIGIT_SIX 11 s
  else
    let value := if value > 999999 then 999999 else value
    let s := displayDigit DIGIT_SIX (value % 10) s
    let value := value / 10
    let s := displayDigit DIGIT_FIVE (value % 10) s
    let value := value / 10
    let s := displayDigit DIGIT_FOUR (value % 10) s
    let value := value / 10
    let s := displayDigit DIGIT_THREE (value % 10) s
    let value := value / 10
    let s := displayDigit DIGIT_TWO (value % 10) s
    displayDigit DIGIT_ONE (value / 10) s

/-- `setTcasValue(value)`. -/
def setTcasValue (value : Nat) (s : State) : State :=
  let value := value % 2 ^ 16
  let value := if value > 9999 then 9999 else value
  let s := displayDigit DIGIT_FIVE (value % 10) s
  let value := value / 10
  let s := displayDigit DIGIT_FOUR (value % 10) s
  let value := value / 10
  let s := displayDigit DIGIT_THREE (value % 10) s
  displayDigit DIGIT_TWO (value / 10) s

/-- `showRadio(value)`. -/
def showRadio (value : Nat) (s : State) : State :=
  let value := value % 2 ^ 32
  let s := setRadioValue value s
  if value = 0 then setRadioDot false s else setRadioDot true s

/-- `showTcas(value)`. -/
def showTcas (value : Nat) (s : State) : State :=
  let value := value % 2 ^ 16
  let s := setTcasValue value s
  let s := displayDigit DIGIT_ONE 11 s
  let s := displayDigit DIGIT_SIX 11 s
  setRadioDot false s

/-- `showTest(enabled)`. -/
def showTest (enabled : Bool) (s : State) : Option State :=
  if enabled then
    let s := setRadioValue 888888 s
    some (setAllDots enabled s)
  else
    clearLCD s

/-! ## The command entry point -/

/-- The C library's `isspace` in the "C" locale: space, and `\t \n \v \f \r`. -/
def isspace (c : Char) : Bool :=
  c.toNat = 32 || (9 ≤ c.toNat && c.toNat ≤ 13)

/-- The largest `unsigned long` (32 bits on the boards the driver targets). -/
def ULONG_MAX : Nat := 2 ^ 32 - 1

/-- The value of the longest run of decimal digits at the head of a text,
continuing from the accumulated value `acc`. -/
def digitsValue : Nat → List Char → Nat
  | acc, [] => acc
  | acc, c :: cs =>
    if c.isDigit then digitsValue (acc * 10 + (c.toNat - 48)) cs else acc

/-- The C library's `strtoul(nptr, NULL, 10)` on the characters of `nptr` up to
its terminating NUL: leading white space is skipped, an optional sign is read,
then the decimal digits; a value above `ULONG_MAX` gives `ULONG_MAX`, a minus
sign negates in `unsigned long`, and a text without digits gives 0. -/
def strtoul (nptr : List Char) : Nat :=
  let cs := nptr.dropWhile isspace
  let neg := cs.head? = some '-'
  let cs := if cs.head? = some '-' ∨ cs.head? = some '+' then cs.tail else cs
  let v := digitsValue 0 cs
  if v > ULONG_MAX then ULONG_MAX
  else if neg then (2 ^ 32 - v) % 2 ^ 32
  else v

/-- Conversion of an integer to `int16_t`. -/
def int16_t (x : Int) : Int := (x + 2 ^ 15) % 2 ^ 16 - 2 ^ 15

/-- Conversion of an integer to `int32_t`. -/
def int32_t (x : Int) : Int := (x + 2 ^ 31) % 2 ^ 32 - 2 ^ 31

/-- The cast `(uint16_t)x`. -/
def uint16_t (x : Int) : Nat := (x % 2 ^ 16).toNat

/-- The cast `(uint32_t)x`. -/
def uint32_t (x : Int) : Nat := (x % 2 ^ 32).toNat

/-- `set(messageID, setPoint)`.  A `uint16_t` passed for a `bool` parameter is
`true` exactly when it is not 0. -/
def set (messageID : Int) (setPoint : List Char) (s : State) : State :=
  let messageID := int16_t messageID
  let data : Int := int32_t (strtoul setPoint)
  if messageID = -1 then s
  else if messageID = -2 then s
  else if messageID = 0 then setRadioDot (decide (uint16_t data ≠ 0)) s
  else if messageID = 1 then setAllDots (decide (uint16_t data ≠ 0)) s
  else if messageID = 2 then showRadio (uint32_t data) s
  else if messageID = 3 then showTcas (uint16_t data) s
  else s

/-! ## Sequences of public operations -/

/-- The data of the last `write` call made for controller address `a`, if any
was made. -/
def lastWritten (calls : List HTCall) (a : Nat) : Option Nat :=
  calls.foldl (fun acc c =>
    match c with
    | HTCall.write a' d _ => if a' = a then some d else acc
    | _ => acc) none

/-- A call of one of the public operations that change the display. -/
inductive Op
  | clearLCD
  | clearDigit (address : Nat)
  | setRadioDot (enabled : Bool)
  | setSpecificDot (address : Nat) (enabled : Bool)
  | setAllDots (enabled : Bool)
  | setRadioValue (value : Nat)
  | setTcasValue (value : Nat)
  | showRadio (value : Nat)
  | showTcas (value : Nat)
  | showTest (enabled : Bool)
  | set (messageID : Int) (setPoint : List Char)

/-- The address argument of the call, where it has one, is one of `0..5`. -/
def Op.addressOk : Op → Bool
  | Op.clearDigit a => decide (a ≤ 5)
  | Op.setSpecificDot a _ => decide (a ≤ 5)
  | _ => true

/-- The effect of one call. -/
def Op.step : Op → State → Option State
  | Op.clearLCD, s => KAV_A3XX_RAD_TCAS_LCD.clearLCD s
  | Op.clearDigit a, s => some (KAV_A3XX_RAD_TCAS_LCD.clearDigit a s)
  | Op.setRadioDot e, s => some (KAV_A3XX_RAD_TCAS_LCD.setRadioDot e s)
  | Op.setSpecificDot a e, s => some (KAV_A3XX_RAD_TCAS_LCD.setSpecificDot a e s)
  | Op.setAllDots e, s => some (KAV_A3XX_RAD_TCAS_LCD.setAllDots e s)
  | Op.setRadioValue v, s => some (KAV_A3XX_RAD_TCAS_LCD.setRadioValue v s)
  | Op.setTcasValue v, s => some (KAV_A3XX_RAD_TCAS_LCD.setTcasValue v s)
  | Op.showRadio v, s => some (KAV_A3XX_RAD_TCAS_LCD.showRadio v s)
  | Op.showTcas v, s => some (KAV_A3XX_RAD_TCAS_LCD.showTcas v s)
  | Op.showTest e, s => KAV_A3XX_RAD_TCAS_LCD.showTest e s
  | Op.set m t, s => some (KAV_A3XX_RAD_TCAS_LCD.set m t s)

/-- The effect of a sequence of calls, first call first. -/
def run : List Op → State → Option State
  | [], s => some s
  | op :: ops, s => (op.step s).bind (run ops)

/-- The shadow buffer agrees with the controller at the six display positions:
for `i` in `0..5` the last pattern written for controller address `2 * i` is
`buffer[i]`. -/
def inSync (s : State) : Prop :=
  ∀ i, i ≤ 5 → lastWritten s.ht_rad_tcas.calls (2 * i) = some (s.buffer i)

instance (s : State) : Decidable (inSync s) := by
  unfold inSync
  infer_instance

/-- A transition from `s` to `t` that leaves `MAX_ADDR` alone and does not
break the agreement of buffer and controller. -/
def keepsSync (s t : State) : Prop :=
  t.ht_rad_tcas.MAX_ADDR = s.ht_rad_tcas.MAX_ADDR ∧ (inSync s → inSync t)

/-- Every buffer subscript used on the way from `s` to `t` is at most `n`. -/
def touchesWithin (n : Nat) (s t : State) : Prop :=
  ∃ l, t.touched = s.touched ++ l ∧ ∀ a ∈ l, a ≤ n

/-! ## Sample states -/

/-- An attached display whose controller has `MAX_ADDR = 32` and whose buffer
holds `0xFF` everywhere. -/
def litState : State :=
  { ht_rad_tcas := { MAX_ADDR := 32, calls := [] }
    buffer := fun _ => 0xFF
    _initialised := true
    _CS := 10
    _CLK := 11
    _DATA := 12
    touched := [] }

/-! ## Auxiliary facts -/

theorem glyph_lookup (d : Nat) (h : d ≤ 15) :
    digitPatternRadTcas[d]? =
      some (digitPatternRadTcas.getD (if d % 256 > 15 then 11 else d % 256) 0) := by
  interval_cases d <;> rfl

@[simp] theorem refreshLCD_buffer (a : Nat) (s : State) :
    (refreshLCD a s).buffer = s.buffer := rfl

theorem displayDigit_buffer (a d : Nat) (s : State) (i : Nat) :
    (displayDigit a d s).buffer i =
      if i = a % 256 then
        digitPatternRadTcas.getD (if d % 256 > 15 then 11 else d % 256) 0
      else s.buffer i := rfl

theorem glyph_lt (d : Nat) : digitPatternRadTcas.getD d 0 < 256 := by
  by_cases h : d ≤ 15
  · interval_cases d <;> decide
  · have hl : digitPatternRadTcas.length ≤ d := by
      have : digitPatternRadTcas.length = 16 := rfl
      omega
    rw [List.getD_eq_default _ _ hl]
    decide

theorem intNot_testBit (b j : Nat) (hb : b ≤ 7) :
    (intNot (1 <<< b)).testBit j = (decide (j < 16) && !decide (b = j)) := by
  have h : 2 ^ b < 2 ^ 16 := Nat.pow_lt_pow_right (by decide) (by omega)
  have e : intNot (1 <<< b) = 2 ^ 16 - (2 ^ b + 1) := by
    simp only [intNot, INT_BITS, Nat.one_shiftLeft]; omega
  rw [e, Nat.testBit_two_pow_sub_succ h, Nat.testBit_two_pow]

/-- Bitwise description of the byte stored by `SET_BUFF_BIT`: bit `b` becomes
`e`, every other bit is the one of `p`. -/
theorem setBuffBitValue_testBit (p b : Nat) (e : Bool) (hp : p < 256) (hb : b ≤ 7) (j : Nat) :
    (setBuffBitValue p b e).testBit j = if j = b then e else p.testBit j := by
  have h256 : (256 : Nat) = 2 ^ 8 := by norm_num
  have hhi : 8 ≤ j → p.testBit j = false := fun h =>
    Nat.testBit_lt_two_pow
      (lt_of_lt_of_le hp (by rw [h256]; exact Nat.pow_le_pow_right (by decide) h))
  have he : e.toNat &&& 1 = e.toNat := by cases e <;> rfl
  unfold setBuffBitValue
  rw [he, h256, Nat.testBit_mod_two_pow, Nat.testBit_or, Nat.testBit_and,
    intNot_testBit b j hb, Nat.testBit_shiftLeft]
  by_cases hjb : j = b
  · subst hjb
    have h16 : j < 16 := by omega
    have h8 : j < 8 := by omega
    cases e <;> simp [h16, h8]
  · by_cases hj8 : j < 8
    · have h16 : j < 16 := by omega
      cases e
      · simp [hjb, hj8, h16, Ne.symm hjb]
      · simp only [hjb, hj8, h16, Ne.symm hjb, Bool.toNat_true, decide_True, decide_False,
          Bool.not_false, Bool.and_true, Bool.true_and, if_false, ge_iff_le]
        have h1 : (decide (b ≤ j) && Nat.testBit 1 (j - b)) = false := by
          rw [Bool.and_eq_false_iff]
          by_cases hle : b ≤ j
          · right
            rw [Bool.eq_false_iff]
            intro h2
            rw [Nat.testBit_one_eq_true_iff_self_eq_zero] at h2
            omega
          · left
            simpa using hle
        rw [h1, Bool.or_false]
    · simp [hjb, hj8, hhi (by omega)]

theorem setBuffBitValue_lt (p b : Nat) (e : Bool) : setBuffBitValue p b e < 256 :=
  Nat.mod_lt _ (by decide)

theorem SET_BUFF_BIT_buffer (a b : Nat) (e : Bool) (s : State) (i : Nat) :
    (SET_BUFF_BIT a b e s).buffer i =
      if i = a then setBuffBitValue (s.buffer a) b e else s.buffer i := rfl

theorem setRadioDot_buffer (e : Bool) (s : State) (i : Nat) :
    (setRadioDot e s).buffer i =
      if i = 2 then setBuffBitValue (s.buffer 2) 4 e else s.buffer i := rfl

theorem setSpecificDot_buffer (a : Nat) (e : Bool) (s : State) (i : Nat) :
    (setSpecificDot a e s).buffer i =
      if i = a % 256 then setBuffBitValue (s.buffer (a % 256)) 4 e else s.buffer i := rfl

/-- The clearing loop entered at `i ≤ MAX_ADDR ≤ 255` with enough fuel leaves
after writing 0 to the addresses `i, …, MAX_ADDR - 1` in ascending order. -/
theorem clearLoop_eq (fuel : Nat) : ∀ (i : Nat) (ht : HT1621), i ≤ ht.MAX_ADDR →
    ht.MAX_ADDR ≤ 255 → ht.MAX_ADDR - i < fuel →
    clearLoop fuel i ht = some { ht with
      calls := ht.calls ++
        (List.range' i (ht.MAX_ADDR - i)).map fun k => HTCall.write k 0 none } := by
  induction fuel with
  | zero => intro i ht _ _ hf; omega
  | succ n ih =>
    intro i ht hi hm hf
    by_cases hlt : i < ht.MAX_ADDR
    · have hmod : (i + 1) % 256 = i + 1 := Nat.mod_eq_of_lt (by omega)
      have hsub : ht.MAX_ADDR - i = (ht.MAX_ADDR - (i + 1)) + 1 := by omega
      have hstep := ih (i + 1) (ht.write i 0 none) (by simpa [HT1621.write] using hlt)
        (by simpa [HT1621.write] using hm) (by simp only [HT1621.write]; omega)
      simp only [clearLoop, if_pos hlt, hmod, hstep]
      simp only [HT1621.write, hsub, List.range'_succ, List.map_cons, List.append_assoc,
        List.singleton_append]
    · have hz : ht.MAX_ADDR - i = 0 := by omega
      simp [clearLoop, hlt, hz]

theorem clearController_eq (ht : HT1621) (hm : ht.MAX_ADDR ≤ 255) :
    clearController ht = some { ht with
      calls := ht.calls ++
        (List.range ht.MAX_ADDR).map fun k => HTCall.write k 0 none } := by
  have h := clearLoop_eq 257 0 ht (Nat.zero_le _) hm (by omega)
  simpa [clearController, List.range_eq_range'] using h

theorem clearLCD_eq (s : State) (hm : s.ht_rad_tcas.MAX_ADDR ≤ 255) :
    clearLCD s = some (memset 0 BUFFER_SIZE_MAX { s with
      ht_rad_tcas := { s.ht_rad_tcas with
        calls := s.ht_rad_tcas.calls ++
          (List.range s.ht_rad_tcas.MAX_ADDR).map fun k => HTCall.write k 0 none } }) := by
  simp only [clearLCD, clearController_eq _ hm, Option.map_some']

theorem setAllDots_eq (e : Bool) (s : State) :
    setAllDots e s = setSpecificDot 5 e (setSpecificDot 4 e (setSpecificDot 3 e
      (setSpecificDot 2 e (setSpecificDot 1 e (setSpecificDot 0 e s))))) := rfl

theorem setBuffBitValue_glyph_off (d : Nat) :
    setBuffBitValue (digitPatternRadTcas.getD d 0) 4 false = digitPatternRadTcas.getD d 0 := by
  by_cases h : d ≤ 15
  · interval_cases d <;> decide
  · have hl : digitPatternRadTcas.length ≤ d := by
      have : digitPatternRadTcas.length = 16 := rfl
      omega
    rw [List.getD_eq_default _ _ hl]
    decide

theorem setRadioValue_buffer_two_lt (v : Nat) (s : State) :
    (setRadioValue v s).buffer 2 < 256 := by
  unfold setRadioValue
  simp only [DIGIT_ONE, DIGIT_TWO, DIGIT_THREE, DIGIT_FOUR, DIGIT_FIVE, DIGIT_SIX]
  split
  all_goals
    simp only [displayDigit_buffer, Nat.reduceMod, Nat.reduceEqDiff, if_true, if_false]
    exact glyph_lt _

theorem showRadio_eq (v : Nat) (s : State) (hv : v < 2 ^ 32) :
    showRadio v s = setRadioDot (decide (v ≠ 0)) (setRadioValue v s) := by
  have h : v % 2 ^ 32 = v := Nat.mod_eq_of_lt hv
  by_cases hz : v = 0
  · subst hz
    rfl
  · simp only [showRadio, h, if_neg hz, ne_eq, hz, not_false_eq_true, decide_True, if_false]

theorem showTcas_eq (v : Nat) (s : State) :
    showTcas v s = setRadioDot false (displayDigit 5 11 (displayDigit 0 11
      (displayDigit 1 (min (v % 2 ^ 16) 9999 / 10 / 10 / 10)
        (displayDigit 2 (min (v % 2 ^ 16) 9999 / 10 / 10 % 10)
          (displayDigit 3 (min (v % 2 ^ 16) 9999 / 10 % 10)
            (displayDigit 4 (min (v % 2 ^ 16) 9999 % 10) s)))))) := by
  have hm : (if v % 2 ^ 16 > 9999 then 9999 else v % 2 ^ 16) = min (v % 2 ^ 16) 9999 := by
    split <;> omega
  simp only [showTcas, setTcasValue, Nat.mod_mod, hm, DIGIT_ONE, DIGIT_TWO, DIGIT_THREE,
    DIGIT_FOUR, DIGIT_FIVE, DIGIT_SIX]

/-! ## Rendering a radio value -/

/-- C1: for `1 ≤ v ≤ 999999`, after `setRadioValue v` positions `0..5` hold the
glyph-table patterns of six decimal digits, most significant first, whose
place-value sum is `v`. -/
theorem setRadioValue_digits (v : Nat) (s : State) (h1 : 1 ≤ v) (h2 : v ≤ 999999) :
    ∃ d0 d1 d2 d3 d4 d5 : Nat,
      (d0 ≤ 9 ∧ d1 ≤ 9 ∧ d2 ≤ 9 ∧ d3 ≤ 9 ∧ d4 ≤ 9 ∧ d5 ≤ 9) ∧
      digitPatternRadTcas[d0]? = some ((setRadioValue v s).buffer 0) ∧
      digitPatternRadTcas[d1]? = some ((setRadioValue v s).buffer 1) ∧
      digitPatternRadTcas[d2]? = some ((setRadioValue v s).buffer 2) ∧
      digitPatternRadTcas[d3]? = some ((setRadioValue v s).buffer 3) ∧
      digitPatternRadTcas[d4]? = some ((setRadioValue v s).buffer 4) ∧
      digitPatternRadTcas[d5]? = some ((setRadioValue v s).buffer 5) ∧
      d0 * 100000 + d1 * 10000 + d2 * 1000 + d3 * 100 + d4 * 10 + d5 = v := by
  have hv : v % 2 ^ 32 = v := Nat.mod_eq_of_lt (by omega)
  have hz : ¬ v = 0 := by omega
  have hs : ¬ v > 999999 := by omega
  have e0 : v / 10 / 10 / 10 / 10 / 10 ≤ 9 := by omega
  have hb : ∀ i, (setRadioValue v s).buffer i =
      (displayDigit 0 (v / 10 / 10 / 10 / 10 / 10)
        (displayDigit 1 (v / 10 / 10 / 10 / 10 % 10)
          (displayDigit 2 (v / 10 / 10 / 10 % 10)
            (displayDigit 3 (v / 10 / 10 % 10)
              (displayDigit 4 (v / 10 % 10) (displayDigit 5 (v % 10) s)))))).buffer i := by
    intro i
    simp only [setRadioValue, hv, if_neg hz, if_neg hs, DIGIT_ONE, DIGIT_TWO, DIGIT_THREE,
      DIGIT_FOUR, DIGIT_FIVE, DIGIT_SIX]
  refine ⟨v / 10 / 10 / 10 / 10 / 10, v / 10 / 10 / 10 / 10 % 10, v / 10 / 10 / 10 % 10,
    v / 10 / 10 % 10, v / 10 % 10, v % 10,
    ⟨e0, by omega, by omega, by omega, by omega, by omega⟩, ?_, ?_, ?_, ?_, ?_, ?_, by omega⟩
  all_goals
    rw [hb]
    simp only [displayDigit_buffer, Nat.reduceMod, Nat.reduceEqDiff, if_true, if_false]
    exact glyph_lookup _ (by omega)

theorem setRadioValue_digits_witness :
    ∃ d0 d1 d2 d3 d4 d5 : Nat,
      (d0 ≤ 9 ∧ d1 ≤ 9 ∧ d2 ≤ 9 ∧ d3 ≤ 9 ∧ d4 ≤ 9 ∧ d5 ≤ 9) ∧
      digitPatternRadTcas[d0]? = some ((setRadioValue 120034 litState).buffer 0) ∧
      digitPatternRadTcas[d1]? = some ((setRadioValue 120034 litState).buffer 1) ∧
      digitPatternRadTcas[d2]? = some ((setRadioValue 120034 litState).buffer 2) ∧
      digitPatternRadTcas[d3]? = some ((setRadioValue 120034 litState).buffer 3) ∧
      digitPatternRadTcas[d4]? = some ((setRadioValue 120034 litState).buffer 4) ∧
      digitPatternRadTcas[d5]? = some ((setRadioValue 120034 litState).buffer 5) ∧
      d0 * 100000 + d1 * 10000 + d2 * 1000 + d3 * 100 + d4 * 10 + d5 = 120034 :=
  setRadioValue_digits 120034 litState (by decide) (by decide)

/-- C2: `setRadioValue 0` leaves positions `0..5` holding the patterns of the
glyph codes 11, 13, 14, 15, 14, 11, whatever the buffer held before; none of
the six positions holds the pattern of the digit 0. -/
theorem setRadioValue_zero (s : State) :
    (digitPatternRadTcas[11]? = some ((setRadioValue 0 s).buffer 0) ∧
     digitPatternRadTcas[13]? = some ((setRadioValue 0 s).buffer 1) ∧
     digitPatternRadTcas[14]? = some ((setRadioValue 0 s).buffer 2) ∧
     digitPatternRadTcas[15]? = some ((setRadioValue 0 s).buffer 3) ∧
     digitPatternRadTcas[14]? = some ((setRadioValue 0 s).buffer 4) ∧
     digitPatternRadTcas[11]? = some ((setRadioValue 0 s).buffer 5)) ∧
    ∀ i, i ≤ 5 → digitPatternRadTcas[0]? ≠ some ((setRadioValue 0 s).buffer i) := by
  have hb : ∀ i, (setRadioValue 0 s).buffer i =
      (displayDigit 5 11 (displayDigit 4 14 (displayDigit 3 15 (displayDigit 2 14
        (displayDigit 1 13 (displayDigit 0 11 s)))))).buffer i := fun _ => rfl
  refine ⟨⟨?_, ?_, ?_, ?_, ?_, ?_⟩, ?_⟩
  all_goals
    try intro i hi
    try interval_cases i
    all_goals
      rw [hb]
      simp only [displayDigit_buffer, Nat.reduceMod, Nat.reduceEqDiff, if_true, if_false]
      decide

/-- C3: every 32-bit value `v ≥ 999999` is rendered exactly as `999999`: the
same final state, hence the same buffer and the same sequence of controller
calls; and `999999` itself shows the digit 9 in all six positions. -/
theorem setRadioValue_saturates (v : Nat) (s : State) (h1 : 999999 ≤ v) (h2 : v < 2 ^ 32) :
    setRadioValue v s = setRadioValue 999999 s ∧
    (setRadioValue v s).buffer = (setRadioValue 999999 s).buffer ∧
    (setRadioValue v s).ht_rad_tcas.calls = (setRadioValue 999999 s).ht_rad_tcas.calls ∧
    ∀ i, i ≤ 5 → digitPatternRadTcas[9]? = some ((setRadioValue 999999 s).buffer i) := by
  have hv : v % 2 ^ 32 = v := Nat.mod_eq_of_lt h2
  have hz : ¬ v = 0 := by omega
  have he : setRadioValue v s = setRadioValue 999999 s := by
    by_cases hs : v > 999999
    · simp only [setRadioValue, hv, if_neg hz, if_pos hs]
      rfl
    · have : v = 999999 := by omega
      rw [this]
  refine ⟨he, by rw [he], by rw [he], ?_⟩
  have hb : ∀ i, (setRadioValue 999999 s).buffer i =
      (displayDigit 0 9 (displayDigit 1 9 (displayDigit 2 9 (displayDigit 3 9
        (displayDigit 4 9 (displayDigit 5 9 s)))))).buffer i := fun _ => rfl
  intro i hi
  interval_cases i
  all_goals
    rw [hb]
    simp only [displayDigit_buffer, Nat.reduceMod, Nat.reduceEqDiff, if_true, if_false]
    decide

theorem setRadioValue_saturates_witness :
    setRadioValue 4294967295 litState = setRadioValue 999999 litState ∧
    (setRadioValue 4294967295 litState).buffer = (setRadioValue 999999 litState).buffer ∧
    (setRadioValue 4294967295 litState).ht_rad_tcas.calls =
      (setRadioValue 999999 litState).ht_rad_tcas.calls ∧
    ∀ i, i ≤ 5 → digitPatternRadTcas[9]? = some ((setRadioValue 999999 litState).buffer i) :=
  setRadioValue_saturates 4294967295 litState (by decide) (by decide)

/-! ## Glyph lookup -/

/-- C4: for an address `a` in `0..5` and an 8-bit glyph code `c`, the table
index used by `displayDigit a c` is inside the table; the stored byte is the
table entry of `c` when `c ≤ 15` and is the blank pattern (entry 11, which is
0) when `c > 15`. -/
theorem displayDigit_pattern (a c : Nat) (s : State) (ha : a ≤ 5) (hc : c < 256) :
    (if c > 15 then 11 else c) < digitPatternRadTcas.length ∧
    (c ≤ 15 → digitPatternRadTcas[c]? = some ((displayDigit a c s).buffer a)) ∧
    (15 < c → (displayDigit a c s).buffer a = 0 ∧
      digitPatternRadTcas[11]? = some ((displayDigit a c s).buffer a)) := by
  have h1 : a % 256 = a := Nat.mod_eq_of_lt (by omega)
  have h2 : c % 256 = c := Nat.mod_eq_of_lt hc
  have hlen : digitPatternRadTcas.length = 16 := rfl
  refine ⟨?_, ?_, ?_⟩
  · rw [hlen]
    split <;> omega
  · intro h
    have h3 := glyph_lookup c h
    rw [displayDigit_buffer, h1, if_pos rfl]
    exact h3
  · intro h
    have h3 : c > 15 := h
    rw [displayDigit_buffer, h1, if_pos rfl, h2, if_pos h3]
    exact ⟨rfl, rfl⟩

theorem displayDigit_pattern_witness :
    (if 200 > 15 then 11 else 200) < digitPatternRadTcas.length ∧
    (200 ≤ 15 → digitPatternRadTcas[200]? = some ((displayDigit 3 200 litState).buffer 3)) ∧
    (15 < 200 → (displayDigit 3 200 litState).buffer 3 = 0 ∧
      digitPatternRadTcas[11]? = some ((displayDigit 3 200 litState).buffer 3)) :=
  displayDigit_pattern 3 200 litState (by decide) (by decide)

/-! ## Dots -/

/-- C5: when `buffer[a]` holds a byte, `SET_BUFF_BIT(a, b, e)` with `b` in
`0..7` stores a byte whose bit `b` is `e` and whose other bits are those of the
old byte; `setSpecificDot(a, e)` (for `a` in `0..5`) and `setRadioDot(e)` leave
every bit other than bit 4 of the targeted entry as it was. -/
theorem dot_edit_frame (s : State) (a b : Nat) (e : Bool) (hs : ∀ i, s.buffer i < 256)
    (ha : a ≤ 5) (hb : b ≤ 7) :
    (((SET_BUFF_BIT a b e s).buffer a).testBit b = e ∧
      ∀ j, j ≠ b → ((SET_BUFF_BIT a b e s).buffer a).testBit j = (s.buffer a).testBit j) ∧
    (∀ j, j ≠ 4 → ((setSpecificDot a e s).buffer a).testBit j = (s.buffer a).testBit j) ∧
    (∀ j, j ≠ 4 → ((setRadioDot e s).buffer 2).testBit j = (s.buffer 2).testBit j) := by
  have h1 : a % 256 = a := Nat.mod_eq_of_lt (by omega)
  refine ⟨⟨?_, ?_⟩, ?_, ?_⟩
  · rw [SET_BUFF_BIT_buffer, if_pos rfl, setBuffBitValue_testBit _ _ _ (hs a) hb, if_pos rfl]
  · intro j hj
    rw [SET_BUFF_BIT_buffer, if_pos rfl, setBuffBitValue_testBit _ _ _ (hs a) hb, if_neg hj]
  · intro j hj
    rw [setSpecificDot_buffer, h1, if_pos rfl,
      setBuffBitValue_testBit _ _ _ (hs a) (by decide), if_neg hj]
  · intro j hj
    rw [setRadioDot_buffer, if_pos rfl,
      setBuffBitValue_testBit _ _ _ (hs 2) (by decide), if_neg hj]

theorem dot_edit_frame_witness :
    (((SET_BUFF_BIT 3 6 false litState).buffer 3).testBit 6 = false ∧
      ∀ j, j ≠ 6 →
        ((SET_BUFF_BIT 3 6 false litState).buffer 3).testBit j = (litState.buffer 3).testBit j) ∧
    (∀ j, j ≠ 4 →
      ((setSpecificDot 3 false litState).buffer 3).testBit j = (litState.buffer 3).testBit j) ∧
    (∀ j, j ≠ 4 →
      ((setRadioDot false litState).buffer 2).testBit j = (litState.buffer 2).testBit j) :=
  dot_edit_frame litState 3 6 false (fun _ => show (0xFF : Nat) < 256 by decide) (by decide) (by decide)

/-- C6 fails as stated: with the dot of position 0 lit beforehand (`0xFF`),
switching it on and then off leaves `0xEF`, not the earlier byte. -/
theorem dot_toggle_not_restored :
    litState.buffer 0 = 0xFF ∧
    (setSpecificDot 0 false (setSpecificDot 0 true litState)).buffer 0 = 0xEF ∧
    (setSpecificDot 0 false (setSpecificDot 0 true litState)).buffer 0 ≠ litState.buffer 0 := by
  decide

/-- C6 (amended): for a buffer of bytes and `a` in `0..5`, `setSpecificDot(a, true)`
followed by `setSpecificDot(a, false)` leaves `buffer[a]` equal to its earlier
value with bit 4 cleared; the earlier value is restored exactly when its bit 4
was clear. -/
theorem dot_toggle_clears_dot (s : State) (a : Nat) (hs : ∀ i, s.buffer i < 256) (ha : a ≤ 5) :
    (∀ j, ((setSpecificDot a false (setSpecificDot a true s)).buffer a).testBit j =
        if j = 4 then false else (s.buffer a).testBit j) ∧
    ((setSpecificDot a false (setSpecificDot a true s)).buffer a = s.buffer a ↔
      (s.buffer a).testBit 4 = false) := by
  have h1 : a % 256 = a := Nat.mod_eq_of_lt (by omega)
  have hbits : ∀ j, ((setSpecificDot a false (setSpecificDot a true s)).buffer a).testBit j =
      if j = 4 then false else (s.buffer a).testBit j := by
    intro j
    rw [setSpecificDot_buffer, h1, if_pos rfl,
      setBuffBitValue_testBit _ _ _ (by
        rw [setSpecificDot_buffer, h1, if_pos rfl]
        exact setBuffBitValue_lt _ _ _) (by decide),
      setSpecificDot_buffer, h1, if_pos rfl,
      setBuffBitValue_testBit _ _ _ (hs a) (by decide)]
    by_cases hj : j = 4 <;> simp [hj]
  refine ⟨hbits, ?_, ?_⟩
  · intro h
    have h4 := hbits 4
    rw [h, if_pos rfl] at h4
    exact h4
  · intro h
    apply Nat.eq_of_testBit_eq
    intro j
    rw [hbits j]
    by_cases hj : j = 4
    · rw [if_pos hj, hj, h]
    · rw [if_neg hj]

theorem dot_toggle_clears_dot_witness :
    (∀ j, ((setSpecificDot 0 false (setSpecificDot 0 true litState)).buffer 0).testBit j =
        if j = 4 then false else (litState.buffer 0).testBit j) ∧
    ((setSpecificDot 0 false (setSpecificDot 0 true litState)).buffer 0 = litState.buffer 0 ↔
      (litState.buffer 0).testBit 4 = false) :=
  dot_toggle_clears_dot litState 0 (fun _ => show (0xFF : Nat) < 256 by decide) (by decide)

/-! ## Clearing -/

/-- C7: when the controller constant `MAX_ADDR` fits the `uint8_t` loop counter,
`clearLCD` returns, and afterwards every one of the `BUFFER_SIZE_MAX` buffer
entries is 0, whatever the buffer held before. -/
theorem clearLCD_zeroes (s : State) (hm : s.ht_rad_tcas.MAX_ADDR ≤ 255) :
    ∃ s', clearLCD s = some s' ∧ ∀ i, i < BUFFER_SIZE_MAX → s'.buffer i = 0 := by
  refine ⟨_, clearLCD_eq s hm, ?_⟩
  intro i hi
  simp only [memset, if_pos hi, Nat.zero_mod]

theorem clearLCD_zeroes_witness :
    ∃ s', clearLCD litState = some s' ∧ ∀ i, i < BUFFER_SIZE_MAX → s'.buffer i = 0 :=
  clearLCD_zeroes litState (by decide)

/-! ## Combined operations -/

/-- C8: for a 32-bit value `v`, after `showRadio v` bit 4 of position 2 is set
exactly when `v ≠ 0`; the other bits of position 2 and every other buffer entry
are what `setRadioValue v` renders.  `showRadio 123` leaves the patterns of the
digits 0, 0, 0, 1, 2, 3 with the dot bit added at position 2 only, and
`showRadio 0` leaves the patterns of the codes 11, 13, 14, 15, 14, 11 with the
dot off. -/
theorem showRadio_layout (v : Nat) (s : State) (hv : v < 2 ^ 32) :
    (((showRadio v s).buffer 2).testBit 4 = true ↔ v ≠ 0) ∧
    (∀ j, j ≠ 4 →
      ((showRadio v s).buffer 2).testBit j = ((setRadioValue v s).buffer 2).testBit j) ∧
    (∀ i, i ≠ 2 → (showRadio v s).buffer i = (setRadioValue v s).buffer i) ∧
    (digitPatternRadTcas[0]? = some ((showRadio 123 s).buffer 0) ∧
     digitPatternRadTcas[0]? = some ((showRadio 123 s).buffer 1) ∧
     (∃ g, digitPatternRadTcas[0]? = some g ∧ g.testBit 4 = false ∧
       (showRadio 123 s).buffer 2 = g ||| 1 <<< 4) ∧
     digitPatternRadTcas[1]? = some ((showRadio 123 s).buffer 3) ∧
     digitPatternRadTcas[2]? = some ((showRadio 123 s).buffer 4) ∧
     digitPatternRadTcas[3]? = some ((showRadio 123 s).buffer 5)) ∧
    (digitPatternRadTcas[11]? = some ((showRadio 0 s).buffer 0) ∧
     digitPatternRadTcas[13]? = some ((showRadio 0 s).buffer 1) ∧
     digitPatternRadTcas[14]? = some ((showRadio 0 s).buffer 2) ∧
     digitPatternRadTcas[15]? = some ((showRadio 0 s).buffer 3) ∧
     digitPatternRadTcas[14]? = some ((showRadio 0 s).buffer 4) ∧
     digitPatternRadTcas[11]? = some ((showRadio 0 s).buffer 5) ∧
     ((showRadio 0 s).buffer 2).testBit 4 = false) := by
  have hlt := setRadioValue_buffer_two_lt v s
  refine ⟨?_, ?_, ?_, ?_, ?_⟩
  · rw [showRadio_eq v s hv, setRadioDot_buffer, if_pos rfl,
      setBuffBitValue_testBit _ _ _ hlt (by decide), if_pos rfl]
    simp
  · intro j hj
    rw [showRadio_eq v s hv, setRadioDot_buffer, if_pos rfl,
      setBuffBitValue_testBit _ _ _ hlt (by decide), if_neg hj]
  · intro i hi
    rw [showRadio_eq v s hv, setRadioDot_buffer, if_neg hi]
  · refine ⟨?_, ?_, ⟨0b11101011, ?_, ?_, ?_⟩, ?_, ?_, ?_⟩ <;>
      first | rfl | (simp only [showRadio, showTcas, setTcasValue, setRadioValue, setAllDots_eq,
        setSpecificDot_buffer, setRadioDot_buffer, displayDigit_buffer, DIGIT_ONE, DIGIT_TWO,
        DIGIT_THREE, DIGIT_FOUR, DIGIT_FIVE, DIGIT_SIX, Nat.reducePow, Nat.reduceMod,
        Nat.reduceDiv, Nat.reduceEqDiff, Nat.reduceGT, if_true, if_false]; decide)
  · refine ⟨?_, ?_, ?_, ?_, ?_, ?_, ?_⟩ <;>
      first | rfl | (simp only [showRadio, showTcas, setTcasValue, setRadioValue, setAllDots_eq,
        setSpecificDot_buffer, setRadioDot_buffer, displayDigit_buffer, DIGIT_ONE, DIGIT_TWO,
        DIGIT_THREE, DIGIT_FOUR, DIGIT_FIVE, DIGIT_SIX, Nat.reducePow, Nat.reduceMod,
        Nat.reduceDiv, Nat.reduceEqDiff, Nat.reduceGT, if_true, if_false]; decide)

theorem showRadio_layout_witness :
    (((showRadio 120034 litState).buffer 2).testBit 4 = true ↔ 120034 ≠ 0) ∧
    (∀ i, i ≠ 2 → (showRadio 120034 litState).buffer i =
      (setRadioValue 120034 litState).buffer i) :=
  ⟨(showRadio_layout 120034 litState (by decide)).1,
    (showRadio_layout 120034 litState (by decide)).2.2.1⟩

/-- C9: for a 16-bit value `v`, after `showTcas v` positions 0 and 5 hold the
blank pattern, positions 1..4 hold the patterns of the four decimal digits of
`min v 9999` (most significant at position 1), and bit 4 of position 2 is
clear; `showTcas 12345` shows blank, 9, 9, 9, 9, blank. -/
theorem showTcas_layout (v : Nat) (s : State) (hv : v < 2 ^ 16) :
    (digitPatternRadTcas[11]? = some ((showTcas v s).buffer 0) ∧
     digitPatternRadTcas[min v 9999 / 1000]? = some ((showTcas v s).buffer 1) ∧
     digitPatternRadTcas[min v 9999 / 100 % 10]? = some ((showTcas v s).buffer 2) ∧
     digitPatternRadTcas[min v 9999 / 10 % 10]? = some ((showTcas v s).buffer 3) ∧
     digitPatternRadTcas[min v 9999 % 10]? = some ((showTcas v s).buffer 4) ∧
     digitPatternRadTcas[11]? = some ((showTcas v s).buffer 5) ∧
     ((showTcas v s).buffer 2).testBit 4 = false) ∧
    (digitPatternRadTcas[11]? = some ((showTcas 12345 s).buffer 0) ∧
     digitPatternRadTcas[9]? = some ((showTcas 12345 s).buffer 1) ∧
     digitPatternRadTcas[9]? = some ((showTcas 12345 s).buffer 2) ∧
     digitPatternRadTcas[9]? = some ((showTcas 12345 s).buffer 3) ∧
     digitPatternRadTcas[9]? = some ((showTcas 12345 s).buffer 4) ∧
     digitPatternRadTcas[11]? = some ((showTcas 12345 s).buffer 5)) := by
  have h : v % 2 ^ 16 = v := Nat.mod_eq_of_lt hv
  have e1 : min v 9999 / 10 / 10 / 10 = min v 9999 / 1000 := by omega
  have e2 : min v 9999 / 10 / 10 % 10 = min v 9999 / 100 % 10 := by omega
  have hb : ∀ i, (showTcas v s).buffer i =
      (setRadioDot false (displayDigit 5 11 (displayDigit 0 11
        (displayDigit 1 (min v 9999 / 1000)
          (displayDigit 2 (min v 9999 / 100 % 10)
            (displayDigit 3 (min v 9999 / 10 % 10)
              (displayDigit 4 (min v 9999 % 10) s))))))).buffer i := by
    intro i
    rw [showTcas_eq, h, e1, e2]
  refine ⟨⟨?_, ?_, ?_, ?_, ?_, ?_, ?_⟩, ?_, ?_, ?_, ?_, ?_, ?_⟩
  iterate 6
    on_goal 8 => first | rfl | (simp only [showRadio, showTcas, setTcasValue, setRadioValue, setAllDots_eq,
        setSpecificDot_buffer, setRadioDot_buffer, displayDigit_buffer, DIGIT_ONE, DIGIT_TWO,
        DIGIT_THREE, DIGIT_FOUR, DIGIT_FIVE, DIGIT_SIX, Nat.reducePow, Nat.reduceMod,
        Nat.reduceDiv, Nat.reduceEqDiff, Nat.reduceGT, if_true, if_false]; decide)
  all_goals
    rw [hb]
    simp only [setRadioDot_buffer, displayDigit_buffer, Nat.reduceMod, Nat.reduceEqDiff,
      if_true, if_false, setBuffBitValue_glyph_off]
  · decide
  · exact glyph_lookup _ (by omega)
  · exact glyph_lookup _ (by omega)
  · exact glyph_lookup _ (by omega)
  · exact glyph_lookup _ (by omega)
  · decide
  · have hd : min v 9999 / 100 % 10 ≤ 15 := by omega
    generalize min v 9999 / 100 % 10 = d at hd
    interval_cases d <;> decide

theorem showTcas_layout_witness :
    digitPatternRadTcas[11]? = some ((showTcas 65535 litState).buffer 0) ∧
    digitPatternRadTcas[min 65535 9999 / 1000]? = some ((showTcas 65535 litState).buffer 1) ∧
    digitPatternRadTcas[min 65535 9999 / 100 % 10]? =
      some ((showTcas 65535 litState).buffer 2) ∧
    digitPatternRadTcas[min 65535 9999 / 10 % 10]? = some ((showTcas 65535 litState).buffer 3) ∧
    digitPatternRadTcas[min 65535 9999 % 10]? = some ((showTcas 65535 litState).buffer 4) ∧
    digitPatternRadTcas[11]? = some ((showTcas 65535 litState).buffer 5) ∧
    ((showTcas 65535 litState).buffer 2).testBit 4 = false :=
  (showTcas_layout 65535 litState (by decide)).1

/-- C10: after `showTest true` each of positions `0..5` holds `0xFF`, the
pattern of the digit 8 with bit 4 added; `showTest false` returns (when
`MAX_ADDR` fits the `uint8_t` loop counter) and leaves every buffer entry 0. -/
theorem showTest_patterns (s : State) :
    (∃ s', showTest true s = some s' ∧
      ∀ i, i ≤ 5 → s'.buffer i = 0xFF ∧
        ∃ g, digitPatternRadTcas[8]? = some g ∧ s'.buffer i = g ||| 1 <<< 4) ∧
    (s.ht_rad_tcas.MAX_ADDR ≤ 255 →
      ∃ s', showTest false s = some s' ∧ ∀ i, i < BUFFER_SIZE_MAX → s'.buffer i = 0) := by
  refine ⟨⟨setAllDots true (setRadioValue 888888 s), rfl, ?_⟩, ?_⟩
  · intro i hi
    have hb : (setAllDots true (setRadioValue 888888 s)).buffer i = 0xFF := by
      interval_cases i <;>
      (simp only [showRadio, showTcas, setTcasValue, setRadioValue, setAllDots_eq,
        setSpecificDot_buffer, setRadioDot_buffer, displayDigit_buffer, DIGIT_ONE, DIGIT_TWO,
        DIGIT_THREE, DIGIT_FOUR, DIGIT_FIVE, DIGIT_SIX, Nat.reducePow, Nat.reduceMod,
        Nat.reduceDiv, Nat.reduceEqDiff, Nat.reduceGT, if_true, if_false]; decide)
    exact ⟨hb, 0b11101111, rfl, by rw [hb]; rfl⟩
  · intro hm
    refine ⟨_, clearLCD_eq s hm, ?_⟩
    intro i hi
    simp only [memset, if_pos hi, Nat.zero_mod]

theorem showTest_patterns_witness :
    ∃ s', showTest false litState = some s' ∧ ∀ i, i < BUFFER_SIZE_MAX → s'.buffer i = 0 :=
  (showTest_patterns litState).2 (by decide)

/-! ## The command entry point -/

theorem int16_t_of_range (m : Int) (h1 : -2 ^ 15 ≤ m) (h2 : m < 2 ^ 15) : int16_t m = m := by
  unfold int16_t
  norm_num at h1 h2 ⊢
  omega

/-- C11: for a 16-bit signed `messageID` other than 0, 1, 2, 3 (the sentinels
-1 and -2 included) and any text, `set` returns the state it was given: the
buffer is unchanged and no call is made on the controller. -/
theorem set_other_id_noop (m : Int) (t : List Char) (s : State)
    (h1 : -2 ^ 15 ≤ m) (h2 : m < 2 ^ 15) (h : m ≠ 0 ∧ m ≠ 1 ∧ m ≠ 2 ∧ m ≠ 3) :
    set m t s = s ∧ (set m t s).buffer = s.buffer ∧
    (set m t s).ht_rad_tcas.calls = s.ht_rad_tcas.calls := by
  have he : set m t s = s := by
    obtain ⟨h0, h1', h2', h3⟩ := h
    simp only [set, int16_t_of_range m h1 h2, if_neg h0, if_neg h1', if_neg h2', if_neg h3]
    split
    · rfl
    · split <;> rfl
  exact ⟨he, by rw [he], by rw [he]⟩

theorem set_other_id_noop_witness :
    (set (-1) ['4', '2'] litState = litState ∧
      (set (-1) ['4', '2'] litState).buffer = litState.buffer ∧
      (set (-1) ['4', '2'] litState).ht_rad_tcas.calls = litState.ht_rad_tcas.calls) ∧
    (set 7 ['4', '2'] litState = litState ∧
      (set 7 ['4', '2'] litState).buffer = litState.buffer ∧
      (set 7 ['4', '2'] litState).ht_rad_tcas.calls = litState.ht_rad_tcas.calls) :=
  ⟨set_other_id_noop (-1) ['4', '2'] litState (by decide) (by decide) (by decide),
    set_other_id_noop 7 ['4', '2'] litState (by decide) (by decide) (by decide)⟩

/-! ## Agreement of the shadow buffer and the controller -/

theorem lastWritten_append_write (cs : List HTCall) (a d : Nat) (c : Option Nat) (b : Nat) :
    lastWritten (cs ++ [HTCall.write a d c]) b =
      if a = b then some d else lastWritten cs b := by
  simp [lastWritten, List.foldl_append]

theorem lastWritten_append_zeroes (cs : List HTCall) (n b : Nat) :
    lastWritten (cs ++ (List.range n).map fun k => HTCall.write k 0 none) b =
      if b < n then some 0 else lastWritten cs b := by
  induction n with
  | zero => simp
  | succ n ih =>
    rw [List.range_succ, List.map_append, ← List.append_assoc, List.map_singleton,
      lastWritten_append_write, ih]
    by_cases h1 : n = b
    · rw [if_pos h1, if_pos (by omega)]
    · rw [if_neg h1]
      by_cases h2 : b < n
      · rw [if_pos h2, if_pos (by omega)]
      · rw [if_neg h2, if_neg (by omega)]

theorem keepsSync_refl (s : State) : keepsSync s s := ⟨rfl, id⟩

theorem keepsSync_trans {s t u : State} (h1 : keepsSync s t) (h2 : keepsSync t u) :
    keepsSync s u :=
  ⟨h2.1.trans h1.1, fun h => h2.2 (h1.2 h)⟩

/-- A step that stores `v` at `buffer[a]` and writes `v` for controller address
`a * 2` keeps the buffer and the controller in agreement. -/
theorem keepsSync_of_write (s t : State) (a v : Nat) (c : Option Nat)
    (hm : t.ht_rad_tcas.MAX_ADDR = s.ht_rad_tcas.MAX_ADDR)
    (hc : t.ht_rad_tcas.calls = s.ht_rad_tcas.calls ++ [HTCall.write (a * 2) v c])
    (hb : ∀ i, t.buffer i = if i = a then v else s.buffer i) : keepsSync s t := by
  refine ⟨hm, fun h i hi => ?_⟩
  rw [hc, lastWritten_append_write, hb]
  by_cases hia : i = a
  · subst hia
    rw [if_pos (Nat.mul_comm i 2), if_pos rfl]
  · rw [if_neg (by omega), if_neg hia]
    exact h i hi

theorem displayDigit_calls (a d : Nat) (s : State) :
    (displayDigit a d s).ht_rad_tcas.calls = s.ht_rad_tcas.calls ++
      [HTCall.write (a % 256 * 2) ((displayDigit a d s).buffer (a % 256)) (some 8)] := by
  simp [displayDigit, refreshLCD, State.store, State.touch, HT1621.write]

theorem setSpecificDot_calls (a : Nat) (e : Bool) (s : State) :
    (setSpecificDot a e s).ht_rad_tcas.calls = s.ht_rad_tcas.calls ++
      [HTCall.write (a % 256 * 2) ((setSpecificDot a e s).buffer (a % 256)) (some 8)] := by
  simp [setSpecificDot, SET_BUFF_BIT, refreshLCD, State.store, State.touch, HT1621.write]

theorem setRadioDot_eq (e : Bool) (s : State) : setRadioDot e s = setSpecificDot 2 e s := rfl

theorem keepsSync_displayDigit (a d : Nat) {s t : State} (h : keepsSync s t) :
    keepsSync s (displayDigit a d t) := by
  refine keepsSync_trans h (keepsSync_of_write t _ (a % 256) _ (some 8) rfl
    (displayDigit_calls a d t) ?_)
  intro i
  rw [displayDigit_buffer, displayDigit_buffer, if_pos rfl]

theorem keepsSync_setSpecificDot (a : Nat) (e : Bool) {s t : State} (h : keepsSync s t) :
    keepsSync s (setSpecificDot a e t) := by
  refine keepsSync_trans h (keepsSync_of_write t _ (a % 256) _ (some 8) rfl
    (setSpecificDot_calls a e t) ?_)
  intro i
  rw [setSpecificDot_buffer, setSpecificDot_buffer, if_pos rfl]

theorem keepsSync_setRadioDot (e : Bool) {s t : State} (h : keepsSync s t) :
    keepsSync s (setRadioDot e t) := by
  rw [setRadioDot_eq]
  exact keepsSync_setSpecificDot 2 e h

theorem keepsSync_clearDigit (a : Nat) (s : State) : keepsSync s (clearDigit a s) := by
  refine keepsSync_of_write s _ (a % 256) 0 none rfl rfl ?_
  intro i
  rfl

theorem keepsSync_setAllDots (e : Bool) {s t : State} (h : keepsSync s t) :
    keepsSync s (setAllDots e t) := by
  rw [setAllDots_eq]
  iterate 6 apply keepsSync_setSpecificDot
  exact h

theorem keepsSync_setRadioValue (v : Nat) {s t : State} (h : keepsSync s t) :
    keepsSync s (setRadioValue v t) := by
  unfold setRadioValue
  simp only []
  split
  all_goals
    iterate 6 apply keepsSync_displayDigit
    exact h

theorem keepsSync_setTcasValue (v : Nat) {s t : State} (h : keepsSync s t) :
    keepsSync s (setTcasValue v t) := by
  unfold setTcasValue
  simp only []
  iterate 4 apply keepsSync_displayDigit
  exact h

theorem keepsSync_showRadio (v : Nat) {s t : State} (h : keepsSync s t) :
    keepsSync s (showRadio v t) := by
  unfold showRadio
  simp only []
  split
  all_goals
    apply keepsSync_setRadioDot
    exact keepsSync_setRadioValue _ h

theorem keepsSync_showTcas (v : Nat) {s t : State} (h : keepsSync s t) :
    keepsSync s (showTcas v t) := by
  unfold showTcas
  simp only []
  apply keepsSync_setRadioDot
  iterate 2 apply keepsSync_displayDigit
  exact keepsSync_setTcasValue _ h

theorem keepsSync_set (m : Int) (x : List Char) (s : State) : keepsSync s (set m x s) := by
  unfold set
  simp only []
  split
  · exact keepsSync_refl s
  split
  · exact keepsSync_refl s
  split
  · exact keepsSync_setRadioDot _ (keepsSync_refl s)
  split
  · exact keepsSync_setAllDots _ (keepsSync_refl s)
  split
  · exact keepsSync_showRadio _ (keepsSync_refl s)
  split
  · exact keepsSync_showTcas _ (keepsSync_refl s)
  · exact keepsSync_refl s

theorem clearLCD_inSync (s : State) (h1 : 10 < s.ht_rad_tcas.MAX_ADDR)
    (h2 : s.ht_rad_tcas.MAX_ADDR ≤ 255) :
    ∃ t, clearLCD s = some t ∧ t.ht_rad_tcas.MAX_ADDR = s.ht_rad_tcas.MAX_ADDR ∧ inSync t := by
  refine ⟨_, clearLCD_eq s h2, rfl, ?_⟩
  intro i hi
  have hb : i < BUFFER_SIZE_MAX := by
    have : BUFFER_SIZE_MAX = 16 := rfl
    omega
  simp only [memset, lastWritten_append_zeroes, if_pos hb, Nat.zero_mod]
  rw [if_pos (by omega)]

theorem attach_eq (CS CLK DATA : Nat) (s : State) (h2 : s.ht_rad_tcas.MAX_ADDR ≤ 255) :
    attach CS CLK DATA s = some (memset 0 BUFFER_SIZE_MAX { s with
      _CS := CS % 256, _CLK := CLK % 256, _DATA := DATA % 256, _initialised := true,
      ht_rad_tcas := { s.ht_rad_tcas with
        calls := s.ht_rad_tcas.calls ++ [HTCall.begin, HTCall.sendCommand HTCommand.RC256K,
            HTCall.sendCommand HTCommand.BIAS_THIRD_4_COM, HTCall.sendCommand HTCommand.SYS_EN,
            HTCall.sendCommand HTCommand.LCD_ON] ++
          (List.range s.ht_rad_tcas.MAX_ADDR).map fun k => HTCall.write k 0 none } }) := by
  simp only [attach, begin]
  rw [clearController_eq _ (by simpa [HT1621.sendCommand, HT1621.begin] using h2)]
  simp [HT1621.sendCommand, HT1621.begin]

theorem attach_inSync (CS CLK DATA : Nat) (s : State) (h1 : 10 < s.ht_rad_tcas.MAX_ADDR)
    (h2 : s.ht_rad_tcas.MAX_ADDR ≤ 255) :
    ∃ t, attach CS CLK DATA s = some t ∧
      t.ht_rad_tcas.MAX_ADDR = s.ht_rad_tcas.MAX_ADDR ∧ inSync t := by
  refine ⟨_, attach_eq CS CLK DATA s h2, rfl, ?_⟩
  intro i hi
  have hb : i < BUFFER_SIZE_MAX := by
    have : BUFFER_SIZE_MAX = 16 := rfl
    omega
  simp only [memset, lastWritten_append_zeroes, if_pos hb, Nat.zero_mod]
  rw [if_pos (by omega)]

theorem step_inSync (op : Op) (s : State) (h1 : 10 < s.ht_rad_tcas.MAX_ADDR)
    (h2 : s.ht_rad_tcas.MAX_ADDR ≤ 255) (h : inSync s) :
    ∃ t, op.step s = some t ∧ t.ht_rad_tcas.MAX_ADDR = s.ht_rad_tcas.MAX_ADDR ∧ inSync t := by
  have key : ∀ t, keepsSync s t →
      ∃ u, some t = some u ∧ u.ht_rad_tcas.MAX_ADDR = s.ht_rad_tcas.MAX_ADDR ∧ inSync u :=
    fun t ht => ⟨t, rfl, ht.1, ht.2 h⟩
  cases op with
  | clearLCD => exact clearLCD_inSync s h1 h2
  | clearDigit a => exact key _ (keepsSync_clearDigit a s)
  | setRadioDot e => exact key _ (keepsSync_setRadioDot e (keepsSync_refl s))
  | setSpecificDot a e => exact key _ (keepsSync_setSpecificDot a e (keepsSync_refl s))
  | setAllDots e => exact key _ (keepsSync_setAllDots e (keepsSync_refl s))
  | setRadioValue v => exact key _ (keepsSync_setRadioValue v (keepsSync_refl s))
  | setTcasValue v => exact key _ (keepsSync_setTcasValue v (keepsSync_refl s))
  | showRadio v => exact key _ (keepsSync_showRadio v (keepsSync_refl s))
  | showTcas v => exact key _ (keepsSync_showTcas v (keepsSync_refl s))
  | showTest e =>
    cases e
    · exact clearLCD_inSync s h1 h2
    · exact key _ (keepsSync_setAllDots true (keepsSync_setRadioValue 888888 (keepsSync_refl s)))
  | set m x => exact key _ (keepsSync_set m x s)

theorem run_inSync (ops : List Op) : ∀ s : State, 10 < s.ht_rad_tcas.MAX_ADDR →
    s.ht_rad_tcas.MAX_ADDR ≤ 255 → inSync s →
    ∃ t, run ops s = some t ∧ t.ht_rad_tcas.MAX_ADDR = s.ht_rad_tcas.MAX_ADDR ∧ inSync t := by
  induction ops with
  | nil => exact fun s _ _ h => ⟨s, rfl, rfl, h⟩
  | cons op ops ih =>
    intro s h1 h2 h
    obtain ⟨t, ht, hm, hs⟩ := step_inSync op s h1 h2 h
    obtain ⟨u, hu, hm', hs'⟩ := ih t (by omega) (by omega) hs
    exact ⟨u, by simp only [run, ht, Option.some_bind, hu], hm'.trans hm, hs'⟩

/-- C12: let `MAX_ADDR` cover the controller addresses `0..10` of the six
positions and fit the `uint8_t` loop counter.  From any state, `attach` returns,
and so does every sequence of the public operations with addresses in `0..5`
run after it; in the state reached, for each `i` in `0..5` the pattern last
written for controller address `2 * i` is `buffer[i]`. -/
theorem shadow_invariant (s0 : State) (CS CLK DATA : Nat) (ops : List Op)
    (h1 : 10 < s0.ht_rad_tcas.MAX_ADDR) (h2 : s0.ht_rad_tcas.MAX_ADDR ≤ 255)
    (_hops : ∀ op ∈ ops, op.addressOk = true) :
    ∃ s1 t, attach CS CLK DATA s0 = some s1 ∧ run ops s1 = some t ∧
      ∀ i, i ≤ 5 → lastWritten t.ht_rad_tcas.calls (2 * i) = some (t.buffer i) := by
  obtain ⟨s1, hs1, hm, hsync⟩ := attach_inSync CS CLK DATA s0 h1 h2
  obtain ⟨t, ht, _, hsync'⟩ := run_inSync ops s1 (by omega) (by omega) hsync
  exact ⟨s1, t, hs1, ht, hsync'⟩

theorem shadow_invariant_witness :
    ∃ s1 t, attach 10 11 12 litState = some s1 ∧
      run [Op.showRadio 123, Op.setSpecificDot 4 true, Op.showTest false, Op.clearDigit 0,
        Op.set 3 ['7', '0', '0', '0', '0']] s1 = some t ∧
      ∀ i, i ≤ 5 → lastWritten t.ht_rad_tcas.calls (2 * i) = some (t.buffer i) :=
  shadow_invariant litState 10 11 12 _ (by decide) (by decide) (by decide)

/-! ## Values arriving through `set` -/

/-- C13 at the input `set(3, "65536")`: the text parses to 65536, the cast to
`uint16_t` gives 0, and the display shows blank, 0, 0, 0, 0, blank as
`showTcas(0)` does, where `showTcas(9999)` shows the digit 9. -/
theorem set_tcas_wraps :
    strtoul ['6', '5', '5', '3', '6'] = 65536 ∧
    uint16_t (int32_t (strtoul ['6', '5', '5', '3', '6'])) = 0 ∧
    (∀ i, i ≤ 5 → (set 3 ['6', '5', '5', '3', '6'] litState).buffer i =
      (showTcas 0 litState).buffer i) ∧
    (∀ i, 1 ≤ i → i ≤ 4 →
      digitPatternRadTcas[0]? = some ((set 3 ['6', '5', '5', '3', '6'] litState).buffer i) ∧
      digitPatternRadTcas[9]? = some ((showTcas 9999 litState).buffer i) ∧
      (set 3 ['6', '5', '5', '3', '6'] litState).buffer i ≠
        (showTcas 9999 litState).buffer i) := by
  decide

/-! ## Detaching -/

/-- C14 fails as stated: detaching an attached display whose buffer holds `0xFF`
leaves `0xFF` at position 0. -/
theorem detach_not_cleared :
    litState._initialised = true ∧ (detach litState).buffer 0 = 0xFF ∧
    (detach litState).buffer 0 ≠ 0 := by
  decide

/-- C14 (amended): `detach` changes neither the buffer nor the controller, it
only leaves the display marked as not initialised; the buffer reads 0 at every
position after `attach`. -/
theorem detach_keeps_buffer (s : State) (CS CLK DATA : Nat) :
    (detach s).buffer = s.buffer ∧ (detach s).ht_rad_tcas = s.ht_rad_tcas ∧
    (detach s)._initialised = false ∧
    (s.ht_rad_tcas.MAX_ADDR ≤ 255 →
      ∃ t, attach CS CLK DATA s = some t ∧ ∀ i, i < BUFFER_SIZE_MAX → t.buffer i = 0) := by
  refine ⟨?_, ?_, ?_, ?_⟩
  · unfold detach
    split <;> rfl
  · unfold detach
    split <;> rfl
  · unfold detach
    split
    · next h => simpa using h
    · rfl
  · intro hm
    refine ⟨_, attach_eq CS CLK DATA s hm, ?_⟩
    intro i hi
    simp only [memset, if_pos hi, Nat.zero_mod]

theorem detach_keeps_buffer_witness :
    ∃ t, attach 10 11 12 litState = some t ∧ ∀ i, i < BUFFER_SIZE_MAX → t.buffer i = 0 :=
  (detach_keeps_buffer litState 10 11 12).2.2.2 (by decide)

/-! ## Controller writes -/

/-- C15: for `a` in `0..5`, `displayDigit a c` makes exactly one call on the
controller, the write of the newly stored `buffer[a]` to address `2 * a` with
bit count 8, and changes no buffer entry other than `buffer[a]`. -/
theorem displayDigit_single_write (a c : Nat) (s : State) (ha : a ≤ 5) :
    (displayDigit a c s).ht_rad_tcas.calls = s.ht_rad_tcas.calls ++
      [HTCall.write (2 * a) ((displayDigit a c s).buffer a) (some 8)] ∧
    ∀ i, i ≠ a → (displayDigit a c s).buffer i = s.buffer i := by
  have h1 : a % 256 = a := Nat.mod_eq_of_lt (by omega)
  refine ⟨?_, ?_⟩
  · have h := displayDigit_calls a c s
    rw [h1, Nat.mul_comm a 2] at h
    exact h
  · intro i hi
    rw [displayDigit_buffer, h1, if_neg hi]

theorem displayDigit_single_write_witness :
    (displayDigit 3 7 litState).ht_rad_tcas.calls = litState.ht_rad_tcas.calls ++
      [HTCall.write (2 * 3) ((displayDigit 3 7 litState).buffer 3) (some 8)] ∧
    ∀ i, i ≠ 3 → (displayDigit 3 7 litState).buffer i = litState.buffer i :=
  displayDigit_single_write 3 7 litState (by decide)

/-- C16 fails as stated: rendering 123 a second time changes none of the six
positions and still makes six more calls on the controller. -/
theorem repeated_render_writes_again :
    (∀ i, i ≤ 5 → (setRadioValue 123 (setRadioValue 123 litState)).buffer i =
      (setRadioValue 123 litState).buffer i) ∧
    (setRadioValue 123 (setRadioValue 123 litState)).ht_rad_tcas.calls.length =
      (setRadioValue 123 litState).ht_rad_tcas.calls.length + 6 ∧
    (setRadioValue 123 (setRadioValue 123 litState)).ht_rad_tcas.calls ≠
      (setRadioValue 123 litState).ht_rad_tcas.calls := by
  decide

/-- C16 (amended): writes are unconditional.  `displayDigit` appends one write
whatever the buffer held, and `setRadioValue v` appends exactly six writes, one
per position with the pattern the position ends with: positions 0 to 5 in turn
when the value is 0, positions 5 down to 0 otherwise. -/
theorem setRadioValue_always_writes (v a c : Nat) (s : State) :
    (displayDigit a c s).ht_rad_tcas.calls.length = s.ht_rad_tcas.calls.length + 1 ∧
    (setRadioValue v s).ht_rad_tcas.calls.length = s.ht_rad_tcas.calls.length + 6 ∧
    (setRadioValue v s).ht_rad_tcas.calls = s.ht_rad_tcas.calls ++
      if v % 2 ^ 32 = 0 then
        [HTCall.write 0 ((setRadioValue v s).buffer 0) (some 8),
         HTCall.write 2 ((setRadioValue v s).buffer 1) (some 8),
         HTCall.write 4 ((setRadioValue v s).buffer 2) (some 8),
         HTCall.write 6 ((setRadioValue v s).buffer 3) (some 8),
         HTCall.write 8 ((setRadioValue v s).buffer 4) (some 8),
         HTCall.write 10 ((setRadioValue v s).buffer 5) (some 8)]
      else
        [HTCall.write 10 ((setRadioValue v s).buffer 5) (some 8),
         HTCall.write 8 ((setRadioValue v s).buffer 4) (some 8),
         HTCall.write 6 ((setRadioValue v s).buffer 3) (some 8),
         HTCall.write 4 ((setRadioValue v s).buffer 2) (some 8),
         HTCall.write 2 ((setRadioValue v s).buffer 1) (some 8),
         HTCall.write 0 ((setRadioValue v s).buffer 0) (some 8)] := by
  have hcalls : (setRadioValue v s).ht_rad_tcas.calls = s.ht_rad_tcas.calls ++
      if v % 2 ^ 32 = 0 then
        [HTCall.write 0 ((setRadioValue v s).buffer 0) (some 8),
         HTCall.write 2 ((setRadioValue v s).buffer 1) (some 8),
         HTCall.write 4 ((setRadioValue v s).buffer 2) (some 8),
         HTCall.write 6 ((setRadioValue v s).buffer 3) (some 8),
         HTCall.write 8 ((setRadioValue v s).buffer 4) (some 8),
         HTCall.write 10 ((setRadioValue v s).buffer 5) (some 8)]
      else
        [HTCall.write 10 ((setRadioValue v s).buffer 5) (some 8),
         HTCall.write 8 ((setRadioValue v s).buffer 4) (some 8),
         HTCall.write 6 ((setRadioValue v s).buffer 3) (some 8),
         HTCall.write 4 ((setRadioValue v s).buffer 2) (some 8),
         HTCall.write 2 ((setRadioValue v s).buffer 1) (some 8),
         HTCall.write 0 ((setRadioValue v s).buffer 0) (some 8)] := by
    unfold setRadioValue
    simp only [DIGIT_ONE, DIGIT_TWO, DIGIT_THREE, DIGIT_FOUR, DIGIT_FIVE, DIGIT_SIX]
    split
    all_goals
      simp only [displayDigit_calls, displayDigit_buffer, Nat.reduceMod, Nat.reduceMul,
        Nat.reduceEqDiff, if_true, if_false, List.append_assoc, List.singleton_append,
        List.cons_append, List.nil_append]
  refine ⟨?_, ?_, hcalls⟩
  · rw [displayDigit_calls, List.length_append, List.length_singleton]
  · rw [hcalls, List.length_append]
    split <;> rfl

/-! ## The glyph table and the dot bit -/

theorem glyph_dot_free (d : Nat) : (digitPatternRadTcas.getD d 0).testBit 4 = false := by
  by_cases h : d ≤ 15
  · interval_cases d <;> decide
  · have hl : digitPatternRadTcas.length ≤ d := by
      have : digitPatternRadTcas.length = 16 := rfl
      omega
    rw [List.getD_eq_default _ _ hl]
    decide

/-- C17: after `showTcas v` bit 4 of every position `0..5` is clear, from any
state; in particular from the state left by `showTest true`, in which bit 4 of
all six positions is set. -/
theorem showTcas_dots_off (v : Nat) (s : State) :
    (∀ i, i ≤ 5 → ((showTcas v s).buffer i).testBit 4 = false) ∧
    (showTest true s = some (setAllDots true (setRadioValue 888888 s)) ∧
      ∀ i, i ≤ 5 →
        ((setAllDots true (setRadioValue 888888 s)).buffer i).testBit 4 = true ∧
        ((showTcas v (setAllDots true (setRadioValue 888888 s))).buffer i).testBit 4 =
          false) := by
  have hoff : ∀ (t : State) (i : Nat), i ≤ 5 → ((showTcas v t).buffer i).testBit 4 = false := by
    intro t i hi
    rw [showTcas_eq]
    interval_cases i
    all_goals
      simp only [setRadioDot_buffer, displayDigit_buffer, Nat.reduceMod, Nat.reduceEqDiff,
        if_true, if_false, setBuffBitValue_glyph_off]
      exact glyph_dot_free _
  refine ⟨hoff s, rfl, fun i hi => ⟨?_, hoff _ i hi⟩⟩
  have hb : (setAllDots true (setRadioValue 888888 s)).buffer i = 0xFF := by
    interval_cases i <;>
    (simp only [setRadioValue, setAllDots_eq, setSpecificDot_buffer, displayDigit_buffer,
      DIGIT_ONE, DIGIT_TWO, DIGIT_THREE, DIGIT_FOUR, DIGIT_FIVE, DIGIT_SIX, Nat.reducePow,
      Nat.reduceMod, Nat.reduceDiv, Nat.reduceEqDiff, Nat.reduceGT, if_true, if_false]; decide)
  rw [hb]
  decide

/-- C20: the sixteen patterns of the glyph table are pairwise distinct, so a
pattern determines its glyph code; none of them has bit 4 set, and the byte
`displayDigit` stores at its address has bit 4 clear. -/
theorem glyph_table_injective_dot_free :
    digitPatternRadTcas.Nodup ∧
    (∀ i, i < 16 → ∀ j, j < 16 → digitPatternRadTcas[i]? = digitPatternRadTcas[j]? → i = j) ∧
    (∀ p ∈ digitPatternRadTcas, p.testBit 4 = false) ∧
    (∀ (a c : Nat) (s : State), ((displayDigit a c s).buffer (a % 256)).testBit 4 = false) := by
  refine ⟨by decide, by decide, by decide, ?_⟩
  intro a c s
  rw [displayDigit_buffer, if_pos rfl]
  exact glyph_dot_free _

/-! ## The codes handed to `displayDigit` -/

theorem glyph_digit_not_blank (d : Nat) (h : d ≤ 9) :
    digitPatternRadTcas[11]? ≠
      some (digitPatternRadTcas.getD (if d % 256 > 15 then 11 else d % 256) 0) := by
  interval_cases d <;> decide

/-- C18: for a 32-bit `v ≠ 0`, `setRadioValue v` is the six `displayDigit` calls
on the successive remainders and the last quotient of `min v 999999`; for a
16-bit `w`, `setTcasValue w` is the four calls on those of `min w 9999`; every
code handed over, the last quotient included, is at most 9.  On a code that is
at most 9 `displayDigit` stores the table entry of that very code and not the
blank entry of code 11, and so every position the renderers write ends with
the entry of the digit handed over for it, never with the blank one. -/
theorem renderers_hand_decimal_digits (v w a d : Nat) (s t : State)
    (hv : v < 2 ^ 32) (hv0 : v ≠ 0) (hw : w < 2 ^ 16) (ha : a ≤ 5) (hd : d ≤ 9) :
    (setRadioValue v s =
      displayDigit DIGIT_ONE (min v 999999 / 10 / 10 / 10 / 10 / 10)
        (displayDigit DIGIT_TWO (min v 999999 / 10 / 10 / 10 / 10 % 10)
          (displayDigit DIGIT_THREE (min v 999999 / 10 / 10 / 10 % 10)
            (displayDigit DIGIT_FOUR (min v 999999 / 10 / 10 % 10)
              (displayDigit DIGIT_FIVE (min v 999999 / 10 % 10)
                (displayDigit DIGIT_SIX (min v 999999 % 10) s))))) ∧
      min v 999999 / 10 / 10 / 10 / 10 / 10 ≤ 9 ∧ min v 999999 / 10 / 10 / 10 / 10 % 10 ≤ 9 ∧
      min v 999999 / 10 / 10 / 10 % 10 ≤ 9 ∧ min v 999999 / 10 / 10 % 10 ≤ 9 ∧
      min v 999999 / 10 % 10 ≤ 9 ∧ min v 999999 % 10 ≤ 9) ∧
    (setTcasValue w s =
      displayDigit DIGIT_TWO (min w 9999 / 10 / 10 / 10)
        (displayDigit DIGIT_THREE (min w 9999 / 10 / 10 % 10)
          (displayDigit DIGIT_FOUR (min w 9999 / 10 % 10)
            (displayDigit DIGIT_FIVE (min w 9999 % 10) s))) ∧
      min w 9999 / 10 / 10 / 10 ≤ 9 ∧ min w 9999 / 10 / 10 % 10 ≤ 9 ∧
      min w 9999 / 10 % 10 ≤ 9 ∧ min w 9999 % 10 ≤ 9) ∧
    (digitPatternRadTcas[d]? = some ((displayDigit a d t).buffer a) ∧
      digitPatternRadTcas[11]? ≠ some ((displayDigit a d t).buffer a)) ∧
    (digitPatternRadTcas[min v 999999 / 10 / 10 / 10 / 10 / 10]? =
        some ((setRadioValue v s).buffer 0) ∧
      digitPatternRadTcas[min v 999999 / 10 / 10 / 10 / 10 % 10]? =
        some ((setRadioValue v s).buffer 1) ∧
      digitPatternRadTcas[min v 999999 / 10 / 10 / 10 % 10]? =
        some ((setRadioValue v s).buffer 2) ∧
      digitPatternRadTcas[min v 999999 / 10 / 10 % 10]? =
        some ((setRadioValue v s).buffer 3) ∧
      digitPatternRadTcas[min v 999999 / 10 % 10]? = some ((setRadioValue v s).buffer 4) ∧
      digitPatternRadTcas[min v 999999 % 10]? = some ((setRadioValue v s).buffer 5) ∧
      ∀ i, i ≤ 5 → digitPatternRadTcas[11]? ≠ some ((setRadioValue v s).buffer i)) ∧
    (digitPatternRadTcas[min w 9999 / 10 / 10 / 10]? = some ((setTcasValue w s).buffer 1) ∧
      digitPatternRadTcas[min w 9999 / 10 / 10 % 10]? = some ((setTcasValue w s).buffer 2) ∧
      digitPatternRadTcas[min w 9999 / 10 % 10]? = some ((setTcasValue w s).buffer 3) ∧
      digitPatternRadTcas[min w 9999 % 10]? = some ((setTcasValue w s).buffer 4) ∧
      ∀ i, 1 ≤ i → i ≤ 4 → digitPatternRadTcas[11]? ≠ some ((setTcasValue w s).buffer i)) := by
  have h32 : v % 2 ^ 32 = v := Nat.mod_eq_of_lt hv
  have h16 : w % 2 ^ 16 = w := Nat.mod_eq_of_lt hw
  have hm : (if v > 999999 then 999999 else v) = min v 999999 := by
    split <;> omega
  have hn : (if w > 9999 then 9999 else w) = min w 9999 := by
    split <;> omega
  have hr : setRadioValue v s =
      displayDigit 0 (min v 999999 / 10 / 10 / 10 / 10 / 10)
        (displayDigit 1 (min v 999999 / 10 / 10 / 10 / 10 % 10)
          (displayDigit 2 (min v 999999 / 10 / 10 / 10 % 10)
            (displayDigit 3 (min v 999999 / 10 / 10 % 10)
              (displayDigit 4 (min v 999999 / 10 % 10)
                (displayDigit 5 (min v 999999 % 10) s))))) := by
    simp only [setRadioValue, h32, if_neg hv0, hm, DIGIT_ONE, DIGIT_TWO, DIGIT_THREE,
      DIGIT_FOUR, DIGIT_FIVE, DIGIT_SIX]
  have ht : setTcasValue w s =
      displayDigit 1 (min w 9999 / 10 / 10 / 10)
        (displayDigit 2 (min w 9999 / 10 / 10 % 10)
          (displayDigit 3 (min w 9999 / 10 % 10)
            (displayDigit 4 (min w 9999 % 10) s))) := by
    simp only [setTcasValue, h16, hn, DIGIT_TWO, DIGIT_THREE, DIGIT_FOUR, DIGIT_FIVE]
  have ha1 : a % 256 = a := Nat.mod_eq_of_lt (by omega)
  refine ⟨⟨hr, by omega, by omega, by omega, by omega, by omega, by omega⟩,
    ⟨ht, by omega, by omega, by omega, by omega⟩, ⟨?_, ?_⟩,
    ⟨?_, ?_, ?_, ?_, ?_, ?_, ?_⟩, ⟨?_, ?_, ?_, ?_, ?_⟩⟩
  · rw [displayDigit_buffer, ha1, if_pos rfl]
    exact glyph_lookup d (by omega)
  · rw [displayDigit_buffer, ha1, if_pos rfl]
    exact glyph_digit_not_blank d hd
  iterate 6
    · rw [hr]
      simp only [displayDigit_buffer, Nat.reduceMod, Nat.reduceEqDiff, if_true, if_false]
      exact glyph_lookup _ (by omega)
  · intro i hi
    rw [hr]
    interval_cases i
    all_goals
      simp only [displayDigit_buffer, Nat.reduceMod, Nat.reduceEqDiff, if_true, if_false]
      exact glyph_digit_not_blank _ (by omega)
  iterate 4
    · rw [ht]
      simp only [displayDigit_buffer, Nat.reduceMod, Nat.reduceEqDiff, if_true, if_false]
      exact glyph_lookup _ (by omega)
  · intro i h1 h4
    rw [ht]
    interval_cases i
    all_goals
      simp only [displayDigit_buffer, Nat.reduceMod, Nat.reduceEqDiff, if_true, if_false]
      exact glyph_digit_not_blank _ (by omega)

theorem renderers_hand_decimal_digits_witness :
    (digitPatternRadTcas[9]? = some ((displayDigit 0 9 litState).buffer 0) ∧
      digitPatternRadTcas[11]? ≠ some ((displayDigit 0 9 litState).buffer 0)) ∧
    (∀ i, i ≤ 5 →
      digitPatternRadTcas[11]? ≠ some ((setRadioValue 4294967295 litState).buffer i)) ∧
    (∀ i, 1 ≤ i → i ≤ 4 →
      digitPatternRadTcas[11]? ≠ some ((setTcasValue 65535 litState).buffer i)) :=
  ⟨(renderers_hand_decimal_digits 4294967295 65535 0 9 litState litState (by decide)
      (by decide) (by decide) (by decide) (by decide)).2.2.1,
    (renderers_hand_decimal_digits 4294967295 65535 0 9 litState litState (by decide)
      (by decide) (by decide) (by decide) (by decide)).2.2.2.1.2.2.2.2.2.2,
    (renderers_hand_decimal_digits 4294967295 65535 0 9 litState litState (by decide)
      (by decide) (by decide) (by decide) (by decide)).2.2.2.2.2.2.2.2⟩

/-! ## Buffer subscripts -/

theorem touchesWithin_refl (n : Nat) (s : State) : touchesWithin n s s :=
  ⟨[], (List.append_nil _).symm, fun _ h => absurd h (List.not_mem_nil _)⟩

theorem touchesWithin_append (n : Nat) {s t u : State} (l : List Nat)
    (h : touchesWithin n s t) (hu : u.touched = t.touched ++ l) (hl : ∀ a ∈ l, a ≤ n) :
    touchesWithin n s u := by
  obtain ⟨l0, h0, hl0⟩ := h
  refine ⟨l0 ++ l, by rw [hu, h0, List.append_assoc], ?_⟩
  intro a ha
  rcases List.mem_append.mp ha with h1 | h1
  · exact hl0 a h1
  · exact hl a h1

theorem touchesWithin_displayDigit (a d : Nat) (ha : a % 256 ≤ 5) {s t : State}
    (h : touchesWithin 5 s t) : touchesWithin 5 s (displayDigit a d t) := by
  refine touchesWithin_append 5 [a % 256, a % 256] h ?_ ?_
  · simp [displayDigit, refreshLCD, State.store, State.touch]
  · intro b hb
    simp only [List.mem_cons, List.mem_singleton, List.not_mem_nil, or_false, or_self] at hb
    omega

theorem touchesWithin_setSpecificDot (a : Nat) (e : Bool) (ha : a % 256 ≤ 5) {s t : State}
    (h : touchesWithin 5 s t) : touchesWithin 5 s (setSpecificDot a e t) := by
  refine touchesWithin_append 5 [a % 256, a % 256, a % 256] h ?_ ?_
  · simp [setSpecificDot, SET_BUFF_BIT, refreshLCD, State.store, State.touch]
  · intro b hb
    simp only [List.mem_cons, List.mem_singleton, List.not_mem_nil, or_false, or_self] at hb
    omega

theorem touchesWithin_setRadioDot (e : Bool) {s t : State} (h : touchesWithin 5 s t) :
    touchesWithin 5 s (setRadioDot e t) := by
  rw [setRadioDot_eq]
  exact touchesWithin_setSpecificDot 2 e (by decide) h

theorem touchesWithin_setAllDots (e : Bool) {s t : State} (h : touchesWithin 5 s t) :
    touchesWithin 5 s (setAllDots e t) := by
  rw [setAllDots_eq]
  iterate 6 apply touchesWithin_setSpecificDot _ _ (by decide)
  exact h

theorem touchesWithin_setRadioValue (v : Nat) {s t : State} (h : touchesWithin 5 s t) :
    touchesWithin 5 s (setRadioValue v t) := by
  unfold setRadioValue
  simp only [DIGIT_ONE, DIGIT_TWO, DIGIT_THREE, DIGIT_FOUR, DIGIT_FIVE, DIGIT_SIX]
  split
  all_goals
    iterate 6 apply touchesWithin_displayDigit _ _ (by decide)
    exact h

theorem touchesWithin_setTcasValue (v : Nat) {s t : State} (h : touchesWithin 5 s t) :
    touchesWithin 5 s (setTcasValue v t) := by
  unfold setTcasValue
  simp only [DIGIT_TWO, DIGIT_THREE, DIGIT_FOUR, DIGIT_FIVE]
  iterate 4 apply touchesWithin_displayDigit _ _ (by decide)
  exact h

theorem touchesWithin_showRadio (v : Nat) {s t : State} (h : touchesWithin 5 s t) :
    touchesWithin 5 s (showRadio v t) := by
  unfold showRadio
  simp only []
  split
  all_goals
    apply touchesWithin_setRadioDot
    exact touchesWithin_setRadioValue _ h

theorem touchesWithin_showTcas (v : Nat) {s t : State} (h : touchesWithin 5 s t) :
    touchesWithin 5 s (showTcas v t) := by
  unfold showTcas
  simp only [DIGIT_ONE, DIGIT_SIX]
  apply touchesWithin_setRadioDot
  iterate 2 apply touchesWithin_displayDigit _ _ (by decide)
  exact touchesWithin_setTcasValue _ h

theorem touchesWithin_set (m : Int) (x : List Char) (s : State) :
    touchesWithin 5 s (set m x s) := by
  unfold set
  simp only []
  split
  · exact touchesWithin_refl 5 s
  split
  · exact touchesWithin_refl 5 s
  split
  · exact touchesWithin_setRadioDot _ (touchesWithin_refl 5 s)
  split
  · exact touchesWithin_setAllDots _ (touchesWithin_refl 5 s)
  split
  · exact touchesWithin_showRadio _ (touchesWithin_refl 5 s)
  split
  · exact touchesWithin_showTcas _ (touchesWithin_refl 5 s)
  · exact touchesWithin_refl 5 s

/-- C19 fails as stated: `showTest false` clears the whole buffer, so it uses all
the subscripts `0..15`, among them 15, which is not one of `0..5`. -/
theorem showTest_false_touches_all :
    litState.touched = [] ∧
    Option.map State.touched (showTest false litState) = some (List.range 16) ∧
    15 ∈ List.range 16 ∧ ¬ 15 ≤ 5 := by
  decide

/-- C19 (amended): every buffer subscript used during `set`, `showRadio`,
`showTcas`, `setAllDots`, `setRadioDot` and `showTest true` is one of `0..5`;
`showTest false` uses exactly the subscripts `0..BUFFER_SIZE_MAX - 1`.  All of
them are below `BUFFER_SIZE_MAX`. -/
theorem subscripts_in_range (m : Int) (x : List Char) (v : Nat) (e : Bool) (s : State) :
    touchesWithin 5 s (set m x s) ∧ touchesWithin 5 s (showRadio v s) ∧
    touchesWithin 5 s (showTcas v s) ∧ touchesWithin 5 s (setAllDots e s) ∧
    touchesWithin 5 s (setRadioDot e s) ∧
    (∃ t, showTest true s = some t ∧ touchesWithin 5 s t) ∧
    (s.ht_rad_tcas.MAX_ADDR ≤ 255 →
      ∃ t, showTest false s = some t ∧
        t.touched = s.touched ++ List.range BUFFER_SIZE_MAX ∧
        touchesWithin (BUFFER_SIZE_MAX - 1) s t) ∧
    5 < BUFFER_SIZE_MAX := by
  refine ⟨touchesWithin_set m x s, touchesWithin_showRadio v (touchesWithin_refl 5 s),
    touchesWithin_showTcas v (touchesWithin_refl 5 s),
    touchesWithin_setAllDots e (touchesWithin_refl 5 s),
    touchesWithin_setRadioDot e (touchesWithin_refl 5 s),
    ⟨_, rfl, touchesWithin_setAllDots true
      (touchesWithin_setRadioValue 888888 (touchesWithin_refl 5 s))⟩, ?_, by decide⟩
  intro hm
  refine ⟨_, clearLCD_eq s hm, rfl, List.range BUFFER_SIZE_MAX, rfl, ?_⟩
  intro a ha
  have := List.mem_range.mp ha
  omega

theorem subscripts_in_range_witness :
    ∃ t, showTest false litState = some t ∧
      t.touched = litState.touched ++ List.range BUFFER_SIZE_MAX ∧
      touchesWithin (BUFFER_SIZE_MAX - 1) litState t :=
  (subscripts_in_range 3 ['1', '2'] 123 true litState).2.2.2.2.2.2.1 (by decide)

end KAV_A3XX_RAD_TCAS_LCD
